import Mathlib

/-!
Verification of the persistent log store and power-state controller of the
splint-adherence temperature-logging firmware.  Definitions are shallow
embeddings of the C++ sources: the flash record layout constants, the
plausibility-based index-recovery scan, the append path, the configuration
save path, the init-packet checksum protocol, the boot-time mode transition
rules, the serial `i`-command flow and the absolute-next-wake scheduling
loop.  Machine integers are modelled as `Nat` with explicit `% 2^32`
(resp. `% 2^16`) truncation where the source performs unsigned arithmetic;
the `float` temperature field is modelled as `ℚ` (the plausibility check is
a pair of strict order comparisons which behave identically on the values
the claims mention); flash primitives returning status codes are modelled
as explicit success/failure inputs.
-/

namespace SplintAdherence

/-- Flash storage parameters of `src/unnamed/part_000` / `part_002`. -/
def FLASH_PAGE_SIZE : Nat := 4096

def CONFIG_ADDRESS : Nat := 0x70000

def DATA_START_ADDRESS : Nat := 0x80000

def MAX_DATA_ENTRIES : Nat := 15000

/-- Magic marker persisted before a deliberate watchdog reset
(`src/unnamed/part_002`). -/
def RESET_FLAG_VALUE : Nat := 0xDEADBEEF

/-- `2^32`: modulus of the firmware's `uint32_t` arithmetic. -/
def U32_MOD : Nat := 4294967296

/-- `2^16`: modulus of the firmware's `uint16_t` arithmetic. -/
def U16_MOD : Nat := 65536

/-- `sizeof(TemperatureData)` in `src/unnamed/part_000` (first variant):
`{uint32_t elapsedSeconds; float temperature; uint8_t proximityVal;}`,
padded to 4-byte alignment. -/
def TemperatureDataSize : Nat := 12

/-- The `OperationMode` enum (`MODE_DATA_RETRIEVAL` exists only in the
`collect_temperature_new` variant; the others use the first two values). -/
inductive OperationMode where
  | MODE_IDLE
  | MODE_LOGGING
  | MODE_DATA_RETRIEVAL
deriving DecidableEq, Repr

export OperationMode (MODE_IDLE MODE_LOGGING MODE_DATA_RETRIEVAL)

/-- The `ConfigData` struct: `initialTimestamp`, `wakeupInterval`,
`personalId` (modelled as the list of bytes before the terminating NUL) and
`mode`. -/
structure ConfigData where
  initialTimestamp : Nat
  wakeupInterval : Nat
  personalId : List Nat
  mode : OperationMode
deriving DecidableEq, Repr

/-- The plausibility check applied to each slot by `findHighestDataIndex`:
`data.temperature > -100 && data.temperature < 200`. -/
def isPlausible (t : ℚ) : Bool :=
  decide (-100 < t) && decide (t < 200)

/-- The scan loop body of `findHighestDataIndex` (`src/unnamed/part_000`
lines 144-160).  `slots i` is what `flash.read` yields for slot `i`:
`some t` on a successful read of a record with temperature `t`, `none` on a
read error (which `break`s the loop).  A plausible slot `i` sets
`highestIndex := i + 1`; an implausible one leaves it unchanged and the
loop continues. -/
def fhdiAux (slots : Nat → Option ℚ) : Nat → Nat → Nat → Nat
  | 0, _, acc => acc
  | fuel + 1, i, acc =>
    match slots i with
    | none => acc
    | some t => fhdiAux slots fuel (i + 1) (if isPlausible t then i + 1 else acc)

/-- `findHighestDataIndex`: scan slots `0 .. MAX_DATA_ENTRIES - 1`. -/
def findHighestDataIndex (slots : Nat → Option ℚ) : Nat :=
  fhdiAux slots MAX_DATA_ENTRIES 0 0

/-- The index-recovery scan as the spec words it (§4.3): scan from the
lowest address, stop at the first slot failing the plausibility check (or
read error) or at capacity, return the count of valid leading records. -/
def specRecoverAux (slots : Nat → Option ℚ) : Nat → Nat → Nat
  | 0, i => i
  | fuel + 1, i =>
    match slots i with
    | none => i
    | some t => if isPlausible t then specRecoverAux slots fuel (i + 1) else i

/-- Spec-worded `recover_index()`: count of valid leading records. -/
def specRecoverIndex (slots : Nat → Option ℚ) : Nat :=
  specRecoverAux slots MAX_DATA_ENTRIES 0

/-- `saveTemperatureReading` (`src/unnamed/part_000` lines 81-100).
Computes the write address from `currentIndex`, rejects it only when it
falls outside the physical flash (`flash.get_flash_start()` /
`flash.get_flash_size()`, passed in as `flashStart` / `flashSize`), then
programs the record (`progOk` is the program primitive's success) and
advances the index.  Returns `some newIndex` on success, `none` on
failure (in which case the caller leaves `currentIndex` unchanged). -/
def saveTemperatureReading (flashStart flashSize : Nat) (progOk : Bool)
    (currentIndex : Nat) : Option Nat :=
  let dataOffset := currentIndex * TemperatureDataSize % U32_MOD
  let dataAddress := (DATA_START_ADDRESS + dataOffset) % U32_MOD
  if dataAddress < flashStart ∨
      flashStart + flashSize < dataAddress + TemperatureDataSize then
    none
  else if progOk then some (currentIndex + 1) else none

/-- `saveConfig` of `src/unnamed/part_000` lines 65-79: erase, program,
then read back and `memcmp` against the in-memory struct.  `eraseOk`,
`progOk`, `readOk` are the status results of the three flash primitives and
`stored` is the config actually residing in flash after the program step. -/
def saveConfig (inMem : ConfigData) (eraseOk progOk readOk : Bool)
    (stored : ConfigData) : Bool :=
  if ¬eraseOk then false
  else if ¬progOk then false
  else if ¬readOk ∨ stored ≠ inMem then false
  else true

/-- `saveConfig` of `collect_temperature_new.ino` lines 95-113: erase and
program only.  The source performs no read-back; `readOk` and `stored`
describe the post-program flash state and are not consulted by the code. -/
def saveConfigNew (inMem : ConfigData) (eraseOk progOk readOk : Bool)
    (stored : ConfigData) : Bool :=
  eraseOk && progOk

/-- The spec's durability report (§3 invariant): a write is successful only
after erase, program and a read-back compare against the in-memory value
all succeed. -/
def specSaveReport (inMem : ConfigData) (eraseOk progOk readOk : Bool)
    (stored : ConfigData) : Bool :=
  eraseOk && progOk && (readOk && decide (stored = inMem))

/-- `sizeof(InitializationData)` = 4 + 4 + 16 + 4 bytes. -/
def InitializationDataSize : Nat := 28

/-- Sum of the first `n` bytes of a packet, mirroring the checksum loop
`for (i = 0; i < sizeof(InitializationData) - sizeof(uint32_t); ++i)
calculatedChecksum += dataPtr[i];`. -/
def sumFirstBytes : Nat → List Nat → Nat
  | 0, _ => 0
  | _ + 1, [] => 0
  | n + 1, b :: rest => b + sumFirstBytes n rest

/-- `calculatedChecksum` of `initializeDevice`: the byte sum over the first
24 bytes, truncated by `&= 0xFFFFFFFF`. -/
def calculatedChecksum (bs : List Nat) : Nat :=
  sumFirstBytes 24 bs % U32_MOD

/-- Byte `i` of a packet (erased/missing bytes read as 0). -/
def byteAt (bs : List Nat) (i : Nat) : Nat := bs.getD i 0

/-- The little-endian `uint32_t` at offset `off` of a packed byte buffer
(ARM `memcpy` into a `uint32_t` field). -/
def parseU32LE (bs : List Nat) (off : Nat) : Nat :=
  byteAt bs off + 256 * byteAt bs (off + 1) + 65536 * byteAt bs (off + 2) +
    16777216 * byteAt bs (off + 3)

/-- `initData.checksum`: the trailing 4-byte field at offset 24. -/
def storedChecksum (bs : List Nat) : Nat := parseU32LE bs 24

/-- The checksum test of `initializeDevice`
(`calculatedChecksum != initData.checksum` rejects). -/
def verifyInitPacket (bs : List Nat) : Bool :=
  calculatedChecksum bs == storedChecksum bs

/-- Boot-time mode reconciliation of `src/unnamed/part_000` (first
variant's `setup`, lines 296-342): `MODE_IDLE` with recovered index 0
switches to `MODE_LOGGING`; a persisted `MODE_LOGGING` always switches back
to `MODE_IDLE`.  The stored configuration's population is not consulted. -/
def bootModeP0 (cfg : ConfigData) (recoveredIndex : Nat) : OperationMode :=
  if cfg.mode = MODE_IDLE ∧ recoveredIndex = 0 then MODE_LOGGING
  else if cfg.mode = MODE_LOGGING then MODE_IDLE
  else cfg.mode

/-- Boot-time mode reconciliation of `src/unnamed/part_002` (`setup`,
lines 470-499).  `dogBit` is `NRF_POWER->RESETREAS & POWER_RESETREAS_DOG_Msk`,
`resetFlag` the word read from `WDT_RESET_FLAG_ADDRESS`;
`wasPlannedReset = isWatchdogReset && resetFlag == RESET_FLAG_VALUE`. -/
def bootModeP2 (cfg : ConfigData) (recoveredIndex : Nat) (dogBit : Bool)
    (resetFlag : Nat) : OperationMode :=
  let wasPlannedReset := dogBit && (resetFlag == RESET_FLAG_VALUE)
  if cfg.mode = MODE_IDLE ∧ recoveredIndex = 0 then MODE_LOGGING
  else if cfg.mode = MODE_LOGGING ∧ wasPlannedReset = false then MODE_IDLE
  else cfg.mode

/-- The bytes of the default label string `"DEFAULT_ID"`. -/
def defaultIdBytes : List Nat := [68, 69, 70, 65, 85, 76, 84, 95, 73, 68]

/-- Boot-time mode determination of `collect_temperature_new.ino` (`setup`,
lines 514-547): requires a valid magic number, then
`initialTimestamp > 0 && strlen(personalId) > 0 &&
strcmp(personalId, "DEFAULT_ID") != 0`; with data already collected
(`currentDataIndex > 0`) it idles for retrieval, otherwise it logs;
anything else idles. -/
def bootModeNew (validMagic : Bool) (initialTimestamp : Nat)
    (personalId : List Nat) (currentDataIndex : Nat) : OperationMode :=
  if validMagic then
    if 0 < initialTimestamp ∧ personalId ≠ [] ∧ personalId ≠ defaultIdBytes then
      if 0 < currentDataIndex then MODE_IDLE else MODE_LOGGING
    else MODE_IDLE
  else MODE_IDLE

/-- One iteration of the `MODE_LOGGING` branch of `loop`
(`src/unnamed/part_000` lines 359-405), seen at its scheduling skeleton:
starting the iteration at real time `tNow` with stored `nextWakeTime` `nw`
(a `uint32_t`), the sensor read and flash write take `work` ms, then
`nextWakeTime += wakeupInterval * 1000` and
`if (nextWakeTime > currentTime) delay(nextWakeTime - currentTime)`.
Returns the new `nextWakeTime` and the real time at which the next
iteration starts.  `millis()` is real time reduced `% 2^32`. -/
def loggingIter (intervalMs nw tNow work : Nat) : Nat × Nat :=
  let nw' := (nw + intervalMs) % U32_MOD
  let currentTime := (tNow + work) % U32_MOD
  if currentTime < nw' then (nw', tNow + work + (nw' - currentTime))
  else (nw', tNow + work)

/-- The logging loop unrolled: iteration `k` starts at real time
`(loggingTrace ... k).2` holding `nextWakeTime = (loggingTrace ... k).1`;
the first iteration starts at `t0` and initializes `nextWakeTime = millis()`.
`work k` is the time iteration `k` spends on the sensor read and flash
write. -/
def loggingTrace (intervalMs t0 : Nat) (work : Nat → Nat) : Nat → Nat × Nat
  | 0 => (t0 % U32_MOD, t0)
  | k + 1 =>
    let s := loggingTrace intervalMs t0 work k
    loggingIter intervalMs s.1 s.2 (work k)

/-- The real time at which sample `k` is taken (start of iteration `k`). -/
def sampleTime (intervalMs t0 : Nat) (work : Nat → Nat) (k : Nat) : Nat :=
  (loggingTrace intervalMs t0 work k).2

/-- `encodeDate` (`src/unnamed/part_003` lines 326-329):
`year %= 100; return (year << 9) | (month << 5) | day;` with the
`uint16_t` return truncation. -/
def encodeDate (year month day : Nat) : Nat :=
  (((year % 100) <<< 9 ||| month <<< 5) ||| day) % U16_MOD

/-- `decodeDate` (`src/unnamed/part_003` lines 335-339):
`year = (enc >> 9) + 2000; month = (enc >> 5) & 0x0F; day = enc & 0x1F;`. -/
def decodeDate (enc : Nat) : Nat × Nat × Nat :=
  ((enc >>> 9) + 2000, enc >>> 5 &&& 15, enc &&& 31)

/-- `encodeTime` (`src/unnamed/part_003` lines 331-333):
`return (hour << 8) | minute;` with the `uint16_t` return truncation. -/
def encodeTime (hour minute : Nat) : Nat :=
  (hour <<< 8 ||| minute) % U16_MOD

/-- `decodeTime` (`src/unnamed/part_003` lines 341-344):
`hour = enc >> 8; minute = enc & 0xFF;`. -/
def decodeTime (enc : Nat) : Nat × Nat :=
  (enc >>> 8, enc &&& 255)

/-- The device state the serial command handler touches: the live mode
(`currentMode`), the in-memory `config` mirror and `currentIndex`. -/
structure DeviceState where
  currentMode : OperationMode
  config : ConfigData
  currentIndex : Nat
deriving DecidableEq, Repr

/-- The byte-gathering loop of the `i` command (`src/unnamed/part_000`
lines 223-237): repeatedly poll the serial port until
`sizeof(InitializationData)` bytes have arrived, returning `none`
(TIMEOUT) once more than 5000 ms have elapsed.  `polls` is the trace of
poll outcomes (`some b`: a byte is available and read; `none`: nothing
available, `delay(10)` advances elapsed time by 10 ms); an exhausted trace
means no further byte ever arrives, so the loop can only time out. -/
def readInitBytes : List (Option Nat) → Nat → List Nat → Option (List Nat)
  | [], _, acc =>
    if InitializationDataSize ≤ acc.length then some acc else none
  | p :: rest, elapsed, acc =>
    if InitializationDataSize ≤ acc.length then some acc
    else if 5000 < elapsed then none
    else
      match p with
      | some b => readInitBytes rest elapsed (acc ++ [b])
      | none => readInitBytes rest (elapsed + 10) acc

/-- The `strncpy`/`memset` copy of `initData.personalId` into
`config.personalId` (`src/unnamed/part_000` lines 134-136): at most 15
bytes are copied, stopping at the first NUL, and the result is always
NUL-terminated; the in-memory string is the bytes before that NUL. -/
def copyPersonalId (bs : List Nat) : List Nat :=
  ((bs.drop 8).take 15).takeWhile (fun b => b ≠ 0)

/-- `initializeDevice` (`src/unnamed/part_000` lines 102-142) given the 28
received bytes: reject on checksum mismatch (printing `CHECKSUM_ERROR`);
then erase all data pages (`eraseOk`: the erase primitive's success over
the loop), populate the in-memory config from the packet, reset
`currentIndex` to 0, set `config.mode = MODE_IDLE` and return
`saveConfig()`'s result (`saveOk`).  Yields (returned Bool, state after,
lines printed inside the function). -/
def initializeDevice (eraseOk saveOk : Bool) (st : DeviceState)
    (bs : List Nat) : Bool × DeviceState × List String :=
  if verifyInitPacket bs = false then (false, st, ["CHECKSUM_ERROR"])
  else if eraseOk = false then (false, st, ["ERROR: Failed to erase data page"])
  else
    let cfg : ConfigData :=
      { initialTimestamp := parseU32LE bs 0
        wakeupInterval := parseU32LE bs 4
        personalId := copyPersonalId bs
        mode := MODE_IDLE }
    (saveOk, { st with config := cfg, currentIndex := 0 }, [])

/-- The `i` branch of `processSerialCommand` (`src/unnamed/part_000`
lines 216-251): print `READY_FOR_INIT`, gather the packet (TIMEOUT aborts
with the state untouched), then run `initializeDevice`, reporting
`INITIALIZED` on success and `INIT_FAILED` on failure.  Yields (all lines
printed, state after). -/
def handleInitCommand (eraseOk saveOk : Bool) (st : DeviceState)
    (polls : List (Option Nat)) : List String × DeviceState :=
  match readInitBytes polls 0 [] with
  | none => (["READY_FOR_INIT", "TIMEOUT"], st)
  | some bs =>
    match initializeDevice eraseOk saveOk st bs with
    | (true, st2, msgs) => (["READY_FOR_INIT"] ++ msgs ++ ["INITIALIZED"], st2)
    | (false, st2, msgs) => (["READY_FOR_INIT"] ++ msgs ++ ["INIT_FAILED"], st2)

/-! ## Helper lemmas -/

/-- Setting byte `j < n` of a packet shifts the partial byte sum by the
difference between the new and the old byte. -/
theorem sumFirstBytes_set (bs : List Nat) :
    ∀ (n j v : Nat), j < n → j < bs.length →
      sumFirstBytes n (bs.set j v) + byteAt bs j = sumFirstBytes n bs + v := by
  induction bs with
  | nil => intro n j v _ hlen; simp at hlen
  | cons b rest ih =>
    intro n j v hjn hlen
    cases j with
    | zero =>
      cases n with
      | zero => omega
      | succ m => simp [sumFirstBytes, byteAt]; omega
    | succ k =>
      cases n with
      | zero => omega
      | succ m =>
        have := ih m k v (by omega) (by simpa using hlen)
        simp only [List.set_cons_succ, sumFirstBytes, byteAt, List.getD_cons_succ]
        simp only [byteAt] at this
        omega

/-- Setting byte `j` leaves every other byte unchanged. -/
theorem byteAt_set_ne (bs : List Nat) :
    ∀ (j i v : Nat), j ≠ i → byteAt (bs.set j v) i = byteAt bs i := by
  induction bs with
  | nil => intro j i v _; simp [byteAt]
  | cons b rest ih =>
    intro j i v hne
    cases j with
    | zero =>
      cases i with
      | zero => omega
      | succ k => simp [byteAt, List.getD_cons_succ]
    | succ m =>
      cases i with
      | zero => simp [byteAt]
      | succ k =>
        simp only [List.set_cons_succ, byteAt, List.getD_cons_succ]
        exact ih m k v (by omega)

/-- A byte of a packet of byte-values is below 256. -/
theorem byteAt_lt (bs : List Nat) (j : Nat) (hj : j < bs.length)
    (hb : ∀ x ∈ bs, x < 256) : byteAt bs j < 256 := by
  have hmem : bs.getD j 0 ∈ bs := by
    rw [List.getD_eq_getElem bs 0 hj]
    exact List.getElem_mem hj
  exact hb _ hmem

/-! ## C8: the plausibility range check -/

/-- C8: the plausibility check used by the index-recovery scan accepts a
record exactly when its temperature lies strictly between -100 and 200;
exactly -100 and exactly 200 are rejected, -99.99 and 199.99 accepted. -/
theorem plausibility_range_c8 :
    (∀ t : ℚ, isPlausible t = true ↔ (-100 < t ∧ t < 200)) ∧
    isPlausible (-100) = false ∧ isPlausible 200 = false ∧
    isPlausible (-9999 / 100) = true ∧ isPlausible (19999 / 100) = true := by
  refine ⟨fun t => ?_, by norm_num [isPlausible], by norm_num [isPlausible],
    by norm_num [isPlausible], by norm_num [isPlausible]⟩
  simp [isPlausible]

/-! ## C3: init-packet checksum verification -/

/-- C3: `initializeDevice` accepts a packet exactly when the byte sum over
the payload (all bytes but the trailing 4-byte checksum field), truncated
to 32 bits, equals the stored checksum field; and any single mutated
payload byte of an accepted packet makes it reject. -/
theorem init_checksum_c3 :
    (∀ bs : List Nat,
      verifyInitPacket bs = true ↔ calculatedChecksum bs = storedChecksum bs) ∧
    (∀ bs : List Nat, bs.length = InitializationDataSize →
      (∀ x ∈ bs, x < 256) → verifyInitPacket bs = true →
      ∀ j, j < 24 → ∀ v, v < 256 → v ≠ byteAt bs j →
        verifyInitPacket (bs.set j v) = false) := by
  constructor
  · intro bs; simp [verifyInitPacket]
  · intro bs hlen hbytes hacc j hj v hv hne
    have hjlen : j < bs.length := by rw [hlen]; simp [InitializationDataSize]; omega
    have hsum := sumFirstBytes_set bs 24 j v hj hjlen
    have hstored : storedChecksum (bs.set j v) = storedChecksum bs := by
      simp only [storedChecksum, parseU32LE]
      rw [byteAt_set_ne bs j 24 v (by omega), byteAt_set_ne bs j 25 v (by omega),
        byteAt_set_ne bs j 26 v (by omega), byteAt_set_ne bs j 27 v (by omega)]
    have hacc2 : calculatedChecksum bs = storedChecksum bs := by
      simpa [verifyInitPacket] using hacc
    simp only [verifyInitPacket, beq_eq_false_iff_ne, ne_eq, hstored]
    intro hnew
    rw [← hacc2] at hnew
    have hmod : sumFirstBytes 24 (bs.set j v) % 4294967296 =
        sumFirstBytes 24 bs % 4294967296 := by
      simpa only [calculatedChecksum, U32_MOD] using hnew
    have hbj : byteAt bs j < 256 := byteAt_lt bs j hjlen hbytes
    have : v = byteAt bs j := by omega
    exact hne this

/-! ## C10: packed date/time codec round trip -/

/-- Disjoint bit-or is addition: `a * 2^i ||| b = a * 2^i + b` for `b < 2^i`. -/
theorem lor_eq_add (i a b : Nat) (hb : b < 2 ^ i) : a * 2 ^ i ||| b = a * 2 ^ i + b := by
  rw [Nat.mul_comm]
  exact (Nat.mul_add_lt_is_or hb a).symm

theorem and_fifteen (x : Nat) : x &&& 15 = x % 16 := by
  have h := Nat.and_pow_two_sub_one_eq_mod x 4
  norm_num at h
  exact h

theorem and_thirtyone (x : Nat) : x &&& 31 = x % 32 := by
  have h := Nat.and_pow_two_sub_one_eq_mod x 5
  norm_num at h
  exact h

theorem and_twofiftyfive (x : Nat) : x &&& 255 = x % 256 := by
  have h := Nat.and_pow_two_sub_one_eq_mod x 8
  norm_num at h
  exact h

/-- `encodeDate` in additive form: the three fields occupy disjoint bit
ranges, so the bit-ors are sums. -/
theorem encodeDate_eq (y m d : Nat) (hm : m ≤ 12) (hd : d ≤ 31) :
    encodeDate y m d = y % 100 * 512 + m * 32 + d := by
  have hy : y % 100 < 100 := Nat.mod_lt y (by norm_num)
  have h1 : (y % 100) <<< 9 ||| m <<< 5 = y % 100 * 512 + m * 32 := by
    rw [Nat.shiftLeft_eq, Nat.shiftLeft_eq,
      lor_eq_add 9 (y % 100) (m * 2 ^ 5) (by norm_num; omega)]
    norm_num
  have h2 : y % 100 * 512 + m * 32 ||| d = y % 100 * 512 + m * 32 + d := by
    have hfact : y % 100 * 512 + m * 32 = (y % 100 * 16 + m) * 2 ^ 5 := by ring
    rw [hfact, lor_eq_add 5 _ d (by norm_num; omega)]
  simp only [encodeDate, U16_MOD]
  rw [h1, h2, Nat.mod_eq_of_lt (by omega)]

/-- C10: the packed date/time codec round-trips: decoding an encoded date
yields `(2000 + y % 100, m, d)` and decoding an encoded time yields
`(h, mi)` for all in-range fields. -/
theorem datetime_codec_c10 :
    (∀ y m d : Nat, 1 ≤ m → m ≤ 12 → 1 ≤ d → d ≤ 31 →
      decodeDate (encodeDate y m d) = (2000 + y % 100, m, d)) ∧
    (∀ h mi : Nat, h ≤ 23 → mi ≤ 59 → decodeTime (encodeTime h mi) = (h, mi)) := by
  constructor
  · intro y m d _ hm2 _ hd2
    have hy : y % 100 < 100 := Nat.mod_lt y (by norm_num)
    rw [encodeDate_eq y m d hm2 hd2]
    simp only [decodeDate, Prod.mk.injEq, Nat.shiftRight_eq_div_pow,
      and_fifteen, and_thirtyone]
    norm_num
    refine ⟨by omega, by omega, by omega⟩
  · intro h mi hh hmi
    have he : encodeTime h mi = h * 256 + mi := by
      simp only [encodeTime, U16_MOD]
      rw [Nat.shiftLeft_eq,
        lor_eq_add 8 h mi (by norm_num; omega)]
      norm_num
      omega
    rw [he]
    simp only [decodeTime, Prod.mk.injEq, Nat.shiftRight_eq_div_pow,
      and_twofiftyfive]
    norm_num
    omega

/-! ## C4: continuing a logging session only across a planned reset -/

/-- C4: booting with persisted mode `MODE_LOGGING`, the `part_002` variant
stays in `MODE_LOGGING` exactly when the watchdog reset-cause bit is set
and the persisted planned-reset marker matches `RESET_FLAG_VALUE`;
otherwise it forces `MODE_IDLE`. -/
theorem boot_planned_reset_c4 :
    (∀ (cfg : ConfigData) (idx : Nat) (dog : Bool) (flag : Nat),
      cfg.mode = MODE_LOGGING →
      (bootModeP2 cfg idx dog flag = MODE_LOGGING ↔
        (dog = true ∧ flag = RESET_FLAG_VALUE))) ∧
    (∀ (cfg : ConfigData) (idx : Nat) (dog : Bool) (flag : Nat),
      cfg.mode = MODE_LOGGING → ¬(dog = true ∧ flag = RESET_FLAG_VALUE) →
      bootModeP2 cfg idx dog flag = MODE_IDLE) := by
  constructor
  · intro cfg idx dog flag hmode
    cases dog <;> by_cases hf : flag = RESET_FLAG_VALUE <;>
      simp [bootModeP2, hmode, hf]
  · intro cfg idx dog flag hmode hnot
    cases dog <;> by_cases hf : flag = RESET_FLAG_VALUE <;>
      simp [bootModeP2, hmode, hf] <;> simp [hf] at hnot

/-- C4 witness: a planned watchdog reset while logging keeps the session in
`MODE_LOGGING`. -/
theorem boot_planned_reset_c4_witness :
    bootModeP2 ⟨1700000000, 300, [68, 69, 86, 49], MODE_LOGGING⟩ 3 true
      RESET_FLAG_VALUE = MODE_LOGGING :=
  (boot_planned_reset_c4.1 _ 3 true RESET_FLAG_VALUE rfl).mpr ⟨rfl, rfl⟩

/-! ## C5: the automatic Idle -> Logging transition at boot -/

/-- A completely unconfigured `ConfigData` (the power-on defaults of
`src/unnamed/part_000`): zero epoch and the default label. -/
def cfgUnpopulated : ConfigData := ⟨0, 300, defaultIdBytes, MODE_IDLE⟩

/-- C5 counterexample: on the `part_000` variant a device with persisted
mode Idle, recovered index 0 and a completely unpopulated configuration
(zero initial epoch, default label) still transitions to `MODE_LOGGING`,
while the claim says an unpopulated device stays in Idle. -/
theorem boot_idle_unpopulated_cex_c5 :
    bootModeP0 cfgUnpopulated 0 = MODE_LOGGING ∧
    cfgUnpopulated.initialTimestamp = 0 ∧
    cfgUnpopulated.personalId = defaultIdBytes := by
  refine ⟨rfl, rfl, rfl⟩

/-- C5 amended: the `part_000` variant transitions Idle -> Logging at boot
iff the recovered index is 0, regardless of configuration population; the
`collect_temperature_new` variant enters Logging iff the stored
configuration is valid and fully populated (non-zero epoch, non-empty
non-default label) and the stored index is 0. -/
theorem boot_idle_transition_c5 :
    (∀ (cfg : ConfigData) (idx : Nat), cfg.mode = MODE_IDLE →
      (bootModeP0 cfg idx = MODE_LOGGING ↔ idx = 0)) ∧
    (∀ (vm : Bool) (ts : Nat) (pid : List Nat) (idx : Nat),
      bootModeNew vm ts pid idx = MODE_LOGGING ↔
        (vm = true ∧ 0 < ts ∧ pid ≠ [] ∧ pid ≠ defaultIdBytes ∧ idx = 0)) := by
  constructor
  · intro cfg idx hmode
    by_cases hi : idx = 0 <;> simp [bootModeP0, hmode, hi]
  · intro vm ts pid idx
    cases vm with
    | false => simp [bootModeNew]
    | true =>
      by_cases hp : 0 < ts ∧ pid ≠ [] ∧ pid ≠ defaultIdBytes
      · by_cases hi : 0 < idx <;> simp [bootModeNew, hp, hi] <;> omega
      · simp [bootModeNew, hp]
        intro h1 h2 h3
        exact absurd ⟨h1, h2, h3⟩ hp

/-! ## C6: durability of the configuration write -/

def cfgA : ConfigData := ⟨0, 300, [], MODE_IDLE⟩

def cfgB : ConfigData := ⟨1, 300, [], MODE_IDLE⟩

/-- C6 counterexample: the `collect_temperature_new` `saveConfig` reports
success after erase and program alone, even when the value actually
residing in flash (`cfgB`) differs from the in-memory value (`cfgA`), i.e.
when the read-back compare of the claim would fail. -/
theorem saveconfig_no_verify_cex_c6 :
    saveConfigNew cfgA true true true cfgB = true ∧
    specSaveReport cfgA true true true cfgB = false := by
  refine ⟨rfl, by decide⟩

/-- C6 amended: the `part_000` `saveConfig` reports success iff erase,
program, read-back and compare all succeed (it coincides with the spec's
durability report); the `collect_temperature_new` variant reports success
iff erase and program succeed, performing no read-back verification. -/
theorem saveconfig_durability_c6 :
    (∀ (inMem stored : ConfigData) (e p r : Bool),
      saveConfig inMem e p r stored = specSaveReport inMem e p r stored) ∧
    (∀ (inMem stored : ConfigData) (e p r : Bool),
      saveConfigNew inMem e p r stored = true ↔ (e = true ∧ p = true)) := by
  constructor
  · intro inMem stored e p r
    by_cases hs : stored = inMem <;>
      cases e <;> cases p <;> cases r <;> simp [saveConfig, specSaveReport, hs]
  · intro inMem stored e p r
    cases e <;> cases p <;> simp [saveConfigNew]

/-! ## C2: the append path checks the physical flash bound, not capacity -/

/-- C2: on the nRF52840 flash geometry the code assumes (start 0, size
0x100000), every append up to and including the `MAX_DATA_ENTRIES`-th call
succeeds, and the `MAX_DATA_ENTRIES + 1`-th call (`currentIndex = 15000`)
also succeeds — writing the record past the data-region capacity bound and
advancing the index to 15001 — because `saveTemperatureReading` checks only
the physical flash range.  The append path first refuses at
`currentIndex = 43690`, where the record would cross the end of flash. -/
theorem append_past_capacity_c2 :
    saveTemperatureReading 0 1048576 true (MAX_DATA_ENTRIES - 1) =
      some MAX_DATA_ENTRIES ∧
    saveTemperatureReading 0 1048576 true MAX_DATA_ENTRIES =
      some (MAX_DATA_ENTRIES + 1) ∧
    saveTemperatureReading 0 1048576 true 43689 = some 43690 ∧
    saveTemperatureReading 0 1048576 true 43690 = none := by
  refine ⟨by decide, by decide, by decide, by decide⟩

/-! ## C1: index recovery by scanning -/

/-- A data region whose slot 0 holds an implausible value (1000 °C) while
slot 1 holds a plausible reading; slot 2 fails to read. -/
def gapSlots : Nat → Option ℚ := fun i =>
  if i = 0 then some 1000 else if i = 1 then some 25 else none

/-- C1 counterexample: `findHighestDataIndex` does not stop at the first
slot failing the plausibility check — on `gapSlots` it keeps scanning and
returns 2, while the count of valid leading records (the claim's
description of the scan) is 0. -/
theorem recover_scan_cex_c1 :
    findHighestDataIndex gapSlots = 2 ∧ specRecoverIndex gapSlots = 0 := by
  constructor
  · show fhdiAux gapSlots MAX_DATA_ENTRIES 0 0 = 2
    rfl
  · rfl

/-- The scan result for a region with exactly `N` plausible leading slots
and implausible (but readable) slots up to capacity, at every intermediate
loop state. -/
theorem fhdiAux_run (slots : Nat → Option ℚ) (N : Nat)
    (h1 : ∀ i, i < N → ∃ t, slots i = some t ∧ isPlausible t = true)
    (h2 : ∀ i, N ≤ i → i < MAX_DATA_ENTRIES →
      ∃ t, slots i = some t ∧ isPlausible t = false) :
    ∀ (fuel i acc : Nat), i + fuel ≤ MAX_DATA_ENTRIES → N ≤ i + fuel →
      fhdiAux slots fuel i acc = if i < N then N else acc := by
  intro fuel
  induction fuel with
  | zero =>
    intro i acc _ hN
    have : ¬i < N := by omega
    simp [fhdiAux, this]
  | succ f ih =>
    intro i acc hcap hN
    by_cases hi : i < N
    · obtain ⟨t, hs, hp⟩ := h1 i hi
      simp only [fhdiAux, hs, hp, if_true]
      rw [ih (i + 1) (i + 1) (by omega) (by omega)]
      split <;> omega
    · obtain ⟨t, hs, hp⟩ := h2 i (by omega) (by omega)
      simp only [fhdiAux, hs, hp, Bool.false_eq_true, if_false]
      rw [ih (i + 1) acc (by omega) (by omega)]
      simp [hi, show ¬i + 1 < N by omega]

/-- The scan depends only on the slots below capacity. -/
theorem fhdiAux_congr (slots slots2 : Nat → Option ℚ) :
    ∀ (fuel i acc : Nat), (∀ j, i ≤ j → j < i + fuel → slots j = slots2 j) →
      fhdiAux slots fuel i acc = fhdiAux slots2 fuel i acc := by
  intro fuel
  induction fuel with
  | zero => intro i acc _; simp [fhdiAux]
  | succ f ih =>
    intro i acc hagree
    have hi : slots i = slots2 i := hagree i (by omega) (by omega)
    simp only [fhdiAux, hi]
    cases slots2 i with
    | none => rfl
    | some t => exact ih (i + 1) _ (fun j hj1 hj2 => hagree j (by omega) (by omega))

/-- C1 amended: the scan reads every slot up to capacity (stopping early
only on a read error) and returns one past the position of the last
plausible slot; its result depends only on the first `MAX_DATA_ENTRIES`
slots (re-scanning an unmodified region yields the same index); and after
appending `N` plausible records to a freshly erased region — plausible
values in slots `0..N-1`, readable implausible (erased) values in the
rest — it returns exactly `N`, for every `N` up to capacity. -/
theorem recover_index_c1 :
    (∀ slots slots2 : Nat → Option ℚ,
      (∀ i, i < MAX_DATA_ENTRIES → slots i = slots2 i) →
      findHighestDataIndex slots = findHighestDataIndex slots2) ∧
    (∀ (N : Nat) (slots : Nat → Option ℚ), N ≤ MAX_DATA_ENTRIES →
      (∀ i, i < N → ∃ t, slots i = some t ∧ isPlausible t = true) →
      (∀ i, N ≤ i → i < MAX_DATA_ENTRIES →
        ∃ t, slots i = some t ∧ isPlausible t = false) →
      findHighestDataIndex slots = N) := by
  constructor
  · intro slots slots2 hagree
    exact fhdiAux_congr slots slots2 MAX_DATA_ENTRIES 0 0
      (fun j _ hj => hagree j (by omega))
  · intro N slots hN h1 h2
    have := fhdiAux_run slots N h1 h2 MAX_DATA_ENTRIES 0 0 (by omega) (by omega)
    rw [findHighestDataIndex, this]
    split <;> omega

/-! ## C7: absolute next-wake scheduling -/

/-- The interval in milliseconds as the loop computes it:
`config.wakeupInterval * 1000UL` (`uint32_t`). -/
def intervalMsOf (wakeupInterval : Nat) : Nat := wakeupInterval * 1000 % U32_MOD

/-- Closed form of the logging loop's schedule: as long as no `uint32_t`
wrap occurs over the considered horizon and each iteration's work fits in
the interval, iteration `k` starts — and its sample is taken — exactly at
`t0 + k * intervalMs`. -/
theorem loggingTrace_closed (intervalMs t0 n : Nat) (work : Nat → Nat)
    (hbound : t0 + (n + 1) * intervalMs < U32_MOD)
    (hwork : ∀ k, k ≤ n → work k ≤ intervalMs) :
    ∀ k, k ≤ n + 1 →
      loggingTrace intervalMs t0 work k =
        (t0 + k * intervalMs, t0 + k * intervalMs) := by
  have ht0 : t0 < U32_MOD := by
    have := Nat.le_add_right t0 ((n + 1) * intervalMs)
    omega
  intro k
  induction k with
  | zero => intro _; simp only [loggingTrace, Nat.zero_mul, Nat.add_zero]
            rw [Nat.mod_eq_of_lt ht0]
  | succ j ih =>
    intro hj
    have hstep : (j + 1) * intervalMs ≤ (n + 1) * intervalMs :=
      Nat.mul_le_mul_right intervalMs (by omega)
    have hsucc : (j + 1) * intervalMs = j * intervalMs + intervalMs :=
      Nat.succ_mul j intervalMs
    have hwj : work j ≤ intervalMs := hwork j (by omega)
    simp only [loggingTrace, ih (by omega), loggingIter]
    rw [Nat.mod_eq_of_lt (a := t0 + j * intervalMs + intervalMs) (by omega),
      Nat.mod_eq_of_lt (a := t0 + j * intervalMs + work j) (by omega)]
    split <;> refine Prod.ext (by omega) (by omega)

/-- C7: the logging loop schedules from an absolute next-wake time
advanced by the interval and sleeps only the remaining delta, so (absent a
`uint32_t` wrap over the horizon and with each iteration's sensor read and
flash write fitting in the interval) consecutive samples are exactly
`wakeupInterval * 1000` ms apart — not interval plus work time. -/
theorem scheduler_absolute_wake_c7 (wakeupInterval t0 n : Nat)
    (work : Nat → Nat) (hint : wakeupInterval * 1000 < U32_MOD)
    (hbound : t0 + (n + 1) * (wakeupInterval * 1000) < U32_MOD)
    (hwork : ∀ k, k ≤ n → work k ≤ wakeupInterval * 1000) :
    ∀ k, k ≤ n →
      sampleTime (intervalMsOf wakeupInterval) t0 work (k + 1) =
        sampleTime (intervalMsOf wakeupInterval) t0 work k +
          wakeupInterval * 1000 := by
  have hms : intervalMsOf wakeupInterval = wakeupInterval * 1000 := by
    simp only [intervalMsOf]
    exact Nat.mod_eq_of_lt hint
  intro k hk
  have hc := loggingTrace_closed (wakeupInterval * 1000) t0 n work hbound hwork
  simp only [sampleTime, hms, hc k (by omega), hc (k + 1) (by omega)]
  rw [add_one_mul]
  omega

/-- C7 witness: with a 300-second interval, first sample at `t0 = 0` and
1000 ms of work per iteration, the second sample is taken exactly
300000 ms after the first. -/
theorem scheduler_absolute_wake_c7_witness :
    sampleTime (intervalMsOf 300) 0 (fun _ => 1000) 1 =
      sampleTime (intervalMsOf 300) 0 (fun _ => 1000) 0 + 300 * 1000 :=
  scheduler_absolute_wake_c7 300 0 1 (fun _ => 1000)
    (by norm_num [U32_MOD]) (by norm_num [U32_MOD])
    (fun k _ => by norm_num) 0 (by omega)

/-! ## C9: the serial `i` command -/

/-- Whenever the gathering loop completes (does not time out), it has read
exactly `sizeof(InitializationData)` bytes. -/
theorem readInitBytes_length :
    ∀ (polls : List (Option Nat)) (elapsed : Nat) (acc bs : List Nat),
      acc.length ≤ InitializationDataSize →
      readInitBytes polls elapsed acc = some bs →
      bs.length = InitializationDataSize := by
  intro polls
  induction polls with
  | nil =>
    intro elapsed acc bs hacc h
    simp only [readInitBytes] at h
    split at h
    · cases h; omega
    · cases h
  | cons p rest ih =>
    intro elapsed acc bs hacc h
    simp only [readInitBytes] at h
    split at h
    · cases h; omega
    · split at h
      · cases h
      · cases p with
        | some b =>
          exact ih elapsed (acc ++ [b]) bs
            (by simp only [List.length_append, List.length_cons,
              List.length_nil]; omega) h
        | none => exact ih (elapsed + 10) acc bs hacc h

/-- C9: the `i` command replies `READY_FOR_INIT` first; a completed read
delivers exactly 28 bytes; a timeout replies `TIMEOUT` and leaves the
state untouched; a packet passing the checksum with the flash operations
succeeding replies `INITIALIZED`; a packet failing the checksum replies
`CHECKSUM_ERROR` then `INIT_FAILED` with the state untouched; and the live
mode (`currentMode`) never changes inside the handler, so the device
remains in Idle. -/
theorem serial_init_command_c9 :
    (∀ (e s : Bool) (st : DeviceState) (polls : List (Option Nat)),
      ((handleInitCommand e s st polls).1).head? = some "READY_FOR_INIT") ∧
    (∀ (polls : List (Option Nat)) (bs : List Nat),
      readInitBytes polls 0 [] = some bs →
      bs.length = InitializationDataSize) ∧
    (∀ (e s : Bool) (st : DeviceState) (polls : List (Option Nat)),
      readInitBytes polls 0 [] = none →
      handleInitCommand e s st polls = (["READY_FOR_INIT", "TIMEOUT"], st)) ∧
    (∀ (st : DeviceState) (polls : List (Option Nat)) (bs : List Nat),
      readInitBytes polls 0 [] = some bs → verifyInitPacket bs = true →
      (handleInitCommand true true st polls).1 =
        ["READY_FOR_INIT", "INITIALIZED"]) ∧
    (∀ (e s : Bool) (st : DeviceState) (polls : List (Option Nat))
        (bs : List Nat),
      readInitBytes polls 0 [] = some bs → verifyInitPacket bs = false →
      handleInitCommand e s st polls =
        (["READY_FOR_INIT", "CHECKSUM_ERROR", "INIT_FAILED"], st)) ∧
    (∀ (e s : Bool) (st : DeviceState) (polls : List (Option Nat)),
      ((handleInitCommand e s st polls).2).currentMode = st.currentMode) := by
  refine ⟨?_, ?_, ?_, ?_, ?_, ?_⟩
  · intro e s st polls
    rcases hr : readInitBytes polls 0 [] with _ | bs
    · simp [handleInitCommand, hr]
    · rcases hinit : initializeDevice e s st bs with ⟨b, st2, msgs⟩
      cases b <;> simp [handleInitCommand, hr, hinit]
  · intro polls bs h
    exact readInitBytes_length polls 0 [] bs (by simp) h
  · intro e s st polls hr
    simp [handleInitCommand, hr]
  · intro st polls bs hr hv
    simp [handleInitCommand, hr, initializeDevice, hv]
  · intro e s st polls bs hr hv
    simp [handleInitCommand, hr, initializeDevice, hv]
  · intro e s st polls
    rcases hr : readInitBytes polls 0 [] with _ | bs
    · simp [handleInitCommand, hr]
    · by_cases hv : verifyInitPacket bs = true
      · cases e <;> cases s <;>
          simp [handleInitCommand, hr, initializeDevice, hv]
      · simp only [Bool.not_eq_true] at hv
        simp [handleInitCommand, hr, initializeDevice, hv]

end SplintAdherence
